import Mathlib

/-!
Verification of the daily client process report pipeline: the status
classifier (db_connection.py), the log correlator and summarizer
(log_retriever.py), the tenant-skip filter and failed-process placeholder
logic (daily_report.py), and the HTML report renderer (email_report.py).
Python strings are modelled as Lean strings; the statuses, patterns and
filenames handled by the code are ASCII, where Char.toLower agrees with
the Python str.lower method.
-/

/-- Does the first character list occur at the head of the second?
Building block for the Python substring operator. -/
def leadsWith : List Char → List Char → Bool
  | [], _ => true
  | _ :: _, [] => false
  | a :: as, b :: bs => a == b && leadsWith as bs

/-- Does the first character list occur contiguously anywhere in the
second? -/
def hasSub (needle : List Char) : List Char → Bool
  | [] => leadsWith needle []
  | b :: bs => leadsWith needle (b :: bs) || hasSub needle bs

/-- The Python membership test "pat in hay" on strings. -/
def strContains (hay pat : String) : Bool := hasSub pat.data hay.data

/-- The Python str.lower method, on the ASCII text this repository
handles. -/
def lowerStr (s : String) : String := ⟨s.data.map Char.toLower⟩

/-- The four status buckets built by categorize_processes. -/
inductive Bucket where
  | finished
  | failed
  | running
  | other
deriving DecidableEq

/-- One naive datetime value at second precision, as datetime.datetime
holds it. -/
structure DateTime where
  year : Nat
  month : Nat
  day : Nat
  hour : Nat
  minute : Nat
  second : Nat
deriving DecidableEq

/-- One row of the last-24h process query, as the dict the code passes
around.  Every key of the dict is present; a value that can be NULL in
the database (and so None in Python) is an Option. -/
structure Process where
  name : String
  api_key : Option String
  status_name : Option String
  start_time : DateTime
  stop_time : Option String
  elapsed_time_min : Option String
  source_alias : Option String
  process_uuid : String
deriving DecidableEq

/-- The four lists built by categorize_processes (db_connection.py,
lines 123-128). -/
structure Buckets where
  finished : List Process
  failed : List Process
  running : List Process
  other : List Process
deriving DecidableEq

/-- The loop of categorize_processes (db_connection.py, lines 130-140):
each process is appended to exactly one of the four lists.  A process
whose status_name is None makes the Python expression
process["status_name"].lower() raise AttributeError; that is the error
case. -/
def categorizeGo : List Process → Buckets → Except String Buckets
  | [], b => .ok b
  | p :: rest, b =>
    match p.status_name with
    | none => .error "AttributeError: NoneType object has no attribute lower"
    | some st =>
      let status := lowerStr st
      if strContains status "finish" || strContains status "complete" then
        categorizeGo rest { b with finished := b.finished ++ [p] }
      else if strContains status "fail" || strContains status "error" then
        categorizeGo rest { b with failed := b.failed ++ [p] }
      else if strContains status "running" || strContains status "processing" then
        categorizeGo rest { b with running := b.running ++ [p] }
      else
        categorizeGo rest { b with other := b.other ++ [p] }

/-- categorize_processes (db_connection.py, lines 119-148). -/
def categorize_processes (processes : List Process) : Except String Buckets :=
  categorizeGo processes ⟨[], [], [], []⟩

/-- The bucket selected for one status string by the chain of substring
tests in categorize_processes. -/
def bucketOf (st : String) : Bucket :=
  let status := lowerStr st
  if strContains status "finish" || strContains status "complete" then .finished
  else if strContains status "fail" || strContains status "error" then .failed
  else if strContains status "running" || strContains status "processing" then .running
  else .other

/-- Case-insensitive substring test, the reading the spec gives for
status matching. -/
def containsCI (s pat : String) : Bool := strContains (lowerStr s) (lowerStr pat)

/-- The bucket of one process record, when its status is present. -/
def procBucket (p : Process) : Option Bucket := p.status_name.map bucketOf

/-- Boolean test: does this process fall into the given bucket? -/
def inBucket (bk : Bucket) (p : Process) : Bool := decide (procBucket p = some bk)

lemma categorizeGo_eq (ps : List Process) (b : Buckets)
    (h : ∀ p ∈ ps, (p.status_name).isSome = true) :
    categorizeGo ps b = .ok ⟨b.finished ++ ps.filter (inBucket .finished),
      b.failed ++ ps.filter (inBucket .failed),
      b.running ++ ps.filter (inBucket .running),
      b.other ++ ps.filter (inBucket .other)⟩ := by
  induction ps generalizing b with
  | nil => simp [categorizeGo]
  | cons p rest ih =>
    have hp : (p.status_name).isSome = true := h p (List.mem_cons_self p rest)
    obtain ⟨st, hst⟩ := Option.isSome_iff_exists.mp hp
    have hr : ∀ q ∈ rest, (q.status_name).isSome = true :=
      fun q hq => h q (List.mem_cons_of_mem p hq)
    have hpb : procBucket p = some (bucketOf st) := by simp [procBucket, hst]
    by_cases h1 : (strContains (lowerStr st) "finish" || strContains (lowerStr st) "complete") = true
    · have hbk : bucketOf st = .finished := by simp [bucketOf, h1]
      simp only [categorizeGo, hst, h1, if_true, ih _ hr, List.filter_cons,
        inBucket, hpb, hbk]
      simp
    · by_cases h2 : (strContains (lowerStr st) "fail" || strContains (lowerStr st) "error") = true
      · have hbk : bucketOf st = .failed := by simp [bucketOf, h1, h2]
        simp only [categorizeGo, hst, h1, h2, Bool.false_eq_true, if_false, if_true,
          ih _ hr, List.filter_cons, inBucket, hpb, hbk]
        simp
      · by_cases h3 : (strContains (lowerStr st) "running" || strContains (lowerStr st) "processing") = true
        · have hbk : bucketOf st = .running := by simp [bucketOf, h1, h2, h3]
          simp only [categorizeGo, hst, h1, h2, h3, Bool.false_eq_true, if_false, if_true,
            ih _ hr, List.filter_cons, inBucket, hpb, hbk]
          simp
        · have hbk : bucketOf st = .other := by simp [bucketOf, h1, h2, h3]
          simp only [categorizeGo, hst, h1, h2, h3, Bool.false_eq_true, if_false,
            ih _ hr, List.filter_cons, inBucket, hpb, hbk]
          simp


lemma perm_insert_mid (p : Process) (A B rest : List Process)
    (h : (A ++ B).Perm rest) : (A ++ p :: B).Perm (p :: rest) :=
  List.perm_middle.trans (h.cons p)

lemma four_filter_perm (ps : List Process)
    (h : ∀ p ∈ ps, (p.status_name).isSome = true) :
    (ps.filter (inBucket .finished) ++ ps.filter (inBucket .failed)
      ++ ps.filter (inBucket .running) ++ ps.filter (inBucket .other)).Perm ps := by
  induction ps with
  | nil => simp
  | cons p rest ih =>
    have hp : (p.status_name).isSome = true := h p (List.mem_cons_self p rest)
    obtain ⟨st, hst⟩ := Option.isSome_iff_exists.mp hp
    have hr := ih (fun q hq => h q (List.mem_cons_of_mem p hq))
    have hpb : procBucket p = some (bucketOf st) := by simp [procBucket, hst]
    cases hbk : bucketOf st with
    | finished =>
      simp only [List.filter_cons, inBucket, hpb, hbk]
      simpa using hr.cons p
    | failed =>
      simp only [List.filter_cons, inBucket, hpb, hbk]
      have h2 := perm_insert_mid p (rest.filter (inBucket .finished))
        (rest.filter (inBucket .failed) ++ rest.filter (inBucket .running)
          ++ rest.filter (inBucket .other)) rest
        (by simpa [List.append_assoc] using hr)
      simpa [List.append_assoc] using h2
    | running =>
      simp only [List.filter_cons, inBucket, hpb, hbk]
      have h2 := perm_insert_mid p
        (rest.filter (inBucket .finished) ++ rest.filter (inBucket .failed))
        (rest.filter (inBucket .running) ++ rest.filter (inBucket .other)) rest
        (by simpa [List.append_assoc] using hr)
      simpa [List.append_assoc] using h2
    | other =>
      simp only [List.filter_cons, inBucket, hpb, hbk]
      have h2 := perm_insert_mid p
        (rest.filter (inBucket .finished) ++ rest.filter (inBucket .failed)
          ++ rest.filter (inBucket .running))
        (rest.filter (inBucket .other)) rest
        (by simpa [List.append_assoc] using hr)
      simpa [List.append_assoc] using h2

lemma categorizeGo_ok_iff (ps : List Process) (b : Buckets) :
    (∃ bb, categorizeGo ps b = .ok bb) ↔ ∀ p ∈ ps, (p.status_name).isSome = true := by
  induction ps generalizing b with
  | nil => simp [categorizeGo]
  | cons p rest ih =>
    rcases hst : p.status_name with _ | st
    · simp [categorizeGo, hst]
    · by_cases h1 : (strContains (lowerStr st) "finish" || strContains (lowerStr st) "complete") = true
      · simp only [categorizeGo, hst, h1, if_true]
        rw [ih]
        simp [List.forall_mem_cons, hst]
      · by_cases h2 : (strContains (lowerStr st) "fail" || strContains (lowerStr st) "error") = true
        · simp only [categorizeGo, hst, h1, h2, Bool.false_eq_true, if_false, if_true]
          rw [ih]
          simp [List.forall_mem_cons, hst]
        · by_cases h3 : (strContains (lowerStr st) "running" || strContains (lowerStr st) "processing") = true
          · simp only [categorizeGo, hst, h1, h2, h3, Bool.false_eq_true, if_false, if_true]
            rw [ih]
            simp [List.forall_mem_cons, hst]
          · simp only [categorizeGo, hst, h1, h2, h3, Bool.false_eq_true, if_false]
            rw [ih]
            simp [List.forall_mem_cons, hst]


def procC3 : Process :=
  ⟨"ClientX", some "key-1", none, ⟨2026, 2, 6, 1, 0, 0⟩, none, none, none, "uuid-3"⟩

theorem c3_counterexample :
    categorize_processes [procC3]
      = .error "AttributeError: NoneType object has no attribute lower" := by
  rfl

theorem c3_amended_raises_iff (ps : List Process) :
    (∃ b, categorize_processes ps = .ok b)
      ↔ (ps.all fun p => (p.status_name).isSome) = true := by
  rw [categorize_processes, categorizeGo_ok_iff, List.all_eq_true]

theorem c4_partition (ps : List Process)
    (h : (ps.all fun p => (p.status_name).isSome) = true) :
    categorize_processes ps
      = .ok ⟨ps.filter (inBucket .finished), ps.filter (inBucket .failed),
             ps.filter (inBucket .running), ps.filter (inBucket .other)⟩
    ∧ (ps.filter (inBucket .finished) ++ ps.filter (inBucket .failed)
        ++ ps.filter (inBucket .running) ++ ps.filter (inBucket .other)).Perm ps := by
  have h2 := List.all_eq_true.mp h
  exact ⟨by simpa [categorize_processes] using categorizeGo_eq ps ⟨[], [], [], []⟩ h2,
    four_filter_perm ps h2⟩

def psW : List Process :=
  [⟨"A", some "k1", some "Finished", ⟨2026, 2, 6, 1, 0, 0⟩, none, none, none, "u1"⟩,
   ⟨"B", some "k2", some "Failed: timeout", ⟨2026, 2, 6, 2, 0, 0⟩, none, none, none, "u2"⟩,
   ⟨"C", some "k3", some "Processing", ⟨2026, 2, 6, 3, 0, 0⟩, none, none, none, "u3"⟩]

theorem c4_partition_witness :
    (psW.all fun p => (p.status_name).isSome) = true
    ∧ (categorize_processes psW
        = .ok ⟨psW.filter (inBucket .finished), psW.filter (inBucket .failed),
               psW.filter (inBucket .running), psW.filter (inBucket .other)⟩
      ∧ (psW.filter (inBucket .finished) ++ psW.filter (inBucket .failed)
          ++ psW.filter (inBucket .running) ++ psW.filter (inBucket .other)).Perm psW) :=
  ⟨by decide, c4_partition psW (by decide)⟩

theorem c5_bucket_precedence :
    (∀ s : String,
      (bucketOf s = .finished ↔ (containsCI s "finish" = true ∨ containsCI s "complete" = true))
      ∧ (bucketOf s = .failed ↔
          (¬(containsCI s "finish" = true ∨ containsCI s "complete" = true)
            ∧ (containsCI s "fail" = true ∨ containsCI s "error" = true)))
      ∧ (bucketOf s = .running ↔
          (¬(containsCI s "finish" = true ∨ containsCI s "complete" = true)
            ∧ ¬(containsCI s "fail" = true ∨ containsCI s "error" = true)
            ∧ (containsCI s "running" = true ∨ containsCI s "processing" = true)))
      ∧ (bucketOf s = .other ↔
          (¬(containsCI s "finish" = true ∨ containsCI s "complete" = true)
            ∧ ¬(containsCI s "fail" = true ∨ containsCI s "error" = true)
            ∧ ¬(containsCI s "running" = true ∨ containsCI s "processing" = true))))
    ∧ bucketOf "FAILED_TIMEOUT" = .failed
    ∧ bucketOf "Finished-OK" = .finished
    ∧ bucketOf "queued" = .other := by
  refine ⟨fun s => ?_, by decide, by decide, by decide⟩
  have e1 : lowerStr "finish" = "finish" := by decide
  have e2 : lowerStr "complete" = "complete" := by decide
  have e3 : lowerStr "fail" = "fail" := by decide
  have e4 : lowerStr "error" = "error" := by decide
  have e5 : lowerStr "running" = "running" := by decide
  have e6 : lowerStr "processing" = "processing" := by decide
  simp only [containsCI, e1, e2, e3, e4, e5, e6]
  cases hf1 : strContains (lowerStr s) "finish" <;>
    cases hf2 : strContains (lowerStr s) "complete" <;>
      cases hf3 : strContains (lowerStr s) "fail" <;>
        cases hf4 : strContains (lowerStr s) "error" <;>
          cases hf5 : strContains (lowerStr s) "running" <;>
            cases hf6 : strContains (lowerStr s) "processing" <;>
              simp [bucketOf, hf1, hf2, hf3, hf4, hf5, hf6]

/-- A log file of the logs directory: its filename and its decoded text
lines.  Gzip compression is a byte-level concern: for a .gz file the
lines are the decompressed text, which is what the gz branch of
_contains_uuid iterates over. -/
structure LogFile where
  name : String
  lines : List String
deriving DecidableEq

/-- _contains_uuid (log_retriever.py, lines 72-87): a linear scan of the
lines for the uuid as a literal substring; the .gz branch differs only
in how the bytes are read. -/
def containsUuid (f : LogFile) (uuid : String) : Bool :=
  f.lines.any (fun line => strContains line uuid)

/-- Python pathlib stem: the name minus its last suffix; a dot at index
0 or as the final character starts no suffix. -/
def pathStem (nm : String) : String :=
  let cs := nm.data
  let rev := cs.reverse
  if rev.contains '.' then
    let k := rev.findIdx (fun c => c == '.')
    let i := cs.length - 1 - k
    if 0 < i ∧ i < cs.length - 1 then ⟨cs.take i⟩ else nm
  else nm

/-- The part before the first underscore: Python s.split("_")[0]. -/
def beforeUnderscore (s : String) : String := ⟨s.data.takeWhile (fun c => c ≠ '_')⟩

/-- Read one or two leading digits, greedily, as a strptime one-or-two
digit numeric field does when a non-digit follows it. -/
def takeNum2 : List Char → Option (Nat × List Char)
  | c1 :: c2 :: rest =>
    if c1.isDigit then
      if c2.isDigit then some ((c1.toNat - 48) * 10 + (c2.toNat - 48), rest)
      else some (c1.toNat - 48, c2 :: rest)
    else none
  | [c1] => if c1.isDigit then some (c1.toNat - 48, []) else none
  | [] => none

/-- Read exactly four leading digits, the strptime year field. -/
def takeNum4 : List Char → Option (Nat × List Char)
  | c1 :: c2 :: c3 :: c4 :: rest =>
    if c1.isDigit && c2.isDigit && c3.isDigit && c4.isDigit then
      some ((c1.toNat - 48) * 1000 + (c2.toNat - 48) * 100
        + (c3.toNat - 48) * 10 + (c4.toNat - 48), rest)
    else none
  | _ => none

/-- Consume one expected literal character. -/
def expectChar (c : Char) : List Char → Option (List Char)
  | d :: rest => if d == c then some rest else none
  | [] => none

def isLeap (y : Nat) : Bool := y % 4 == 0 && (y % 100 != 0 || y % 400 == 0)

def daysInMonth (y m : Nat) : Nat :=
  if m = 2 then (if isLeap y then 29 else 28)
  else if m = 4 || m = 6 || m = 9 || m = 11 then 30
  else 31

/-- datetime.strptime(s, "%Y-%m-%dT%H-%M-%S") as a total function: a
four-digit year, one-or-two-digit numeric fields between the literal
separators, a full-string match, and the datetime constructor range
checks.  None is the ValueError case, which find_log_file catches. -/
def parseTimestamp (s : String) : Option DateTime := do
  let (y, r1) ← takeNum4 s.data
  let r2 ← expectChar '-' r1
  let (mo, r3) ← takeNum2 r2
  let r4 ← expectChar '-' r3
  let (d, r5) ← takeNum2 r4
  let r6 ← expectChar 'T' r5
  let (h, r7) ← takeNum2 r6
  let r8 ← expectChar '-' r7
  let (mi, r9) ← takeNum2 r8
  let r10 ← expectChar '-' r9
  let (sec, r11) ← takeNum2 r10
  if r11 = [] ∧ 1 ≤ y ∧ 1 ≤ mo ∧ mo ≤ 12 ∧ 1 ≤ d ∧ d ≤ daysInMonth y mo
      ∧ h ≤ 23 ∧ mi ≤ 59 ∧ sec ≤ 59 then
    some ⟨y, mo, d, h, mi, sec⟩
  else none

/-- Days since 1970-01-01 of a proleptic-Gregorian civil date, by the
standard days-from-civil computation. -/
def daysFromCivil (y m d : Int) : Int :=
  let y2 := if m ≤ 2 then y - 1 else y
  let era := (if 0 ≤ y2 then y2 else y2 - 399) / 400
  let yoe := y2 - era * 400
  let mp := (m + 9) % 12
  let doy := (153 * mp + 2) / 5 + d - 1
  let doe := yoe * 365 + yoe / 4 - yoe / 100 + doy
  era * 146097 + doe - 719468

/-- Seconds since the epoch of a naive DateTime: the difference of two
of these is (a - b).total_seconds() of the two datetimes. -/
def epochSecs (t : DateTime) : Int :=
  daysFromCivil t.year t.month t.day * 86400
    + t.hour * 3600 + t.minute * 60 + t.second

def pad2 (n : Nat) : String := if n < 10 then "0" ++ toString n else toString n

def pad4 (n : Nat) : String :=
  if n < 10 then "000" ++ toString n
  else if n < 100 then "00" ++ toString n
  else if n < 1000 then "0" ++ toString n
  else toString n

/-- start_time.strftime("%Y-%m-%d") of log_retriever.py, line 31. -/
def dateStr (t : DateTime) : String :=
  pad4 t.year ++ "-" ++ pad2 t.month ++ "-" ++ pad2 t.day

/-- str(datetime), also strftime("%Y-%m-%d %H:%M:%S"). -/
def dtDisplay (t : DateTime) : String :=
  dateStr t ++ " " ++ pad2 t.hour ++ ":" ++ pad2 t.minute ++ ":" ++ pad2 t.second

def charsEnds (suf l : List Char) : Bool := leadsWith suf.reverse l.reverse

/-- Path.glob with the pattern "<date>T*_perception_api.log"
(log_retriever.py, line 36): the name starts with the date followed by
"T" and ends with "_perception_api.log"; the star spans anything in
between, dots included, but cannot produce a name with a different
ending such as ".log.gz". -/
def globMatch (date nm : String) : Bool :=
  let pre := (date ++ "T").data
  leadsWith pre nm.data
    && charsEnds "_perception_api.log".data (nm.data.drop pre.length)

/-- Lines 50-52 of log_retriever.py: the stem of the filename, cut at
the first underscore, handed to strptime. -/
def parseLogStamp (nm : String) : Option DateTime :=
  parseTimestamp (beforeUnderscore (pathStem nm))

/-- Lines 48-62 of log_retriever.py: the time-window admissibility
test.  time_diff is (start_time - log_time).total_seconds(); the file is
skipped when time_diff < -3600 or time_diff > 86400.  A filename whose
timestamp does not parse stays admissible (fail-open). -/
def admissibleB (start : DateTime) (f : LogFile) : Bool :=
  match parseLogStamp f.name with
  | some t => !(decide (epochSecs start - epochSecs t < -3600)
      || decide (86400 < epochSecs start - epochSecs t))
  | none => true

/-- Stable ascending insertion by filename. -/
def insertByName (f : LogFile) : List LogFile → List LogFile
  | [] => [f]
  | g :: gs => if decide (f.name < g.name) then f :: g :: gs else g :: insertByName f gs

/-- Python sorted() on the glob matches: a stable ascending sort by
filename. -/
def sortByName (l : List LogFile) : List LogFile :=
  l.foldl (fun acc f => insertByName f acc) []

/-- The scan loop of find_log_file (log_retriever.py, lines 46-67). -/
def searchFiles (uuid : String) (start : DateTime) : List LogFile → Option LogFile
  | [] => none
  | f :: rest =>
    if admissibleB start f then
      if containsUuid f uuid then some f else searchFiles uuid start rest
    else searchFiles uuid start rest

/-- The same loop, returning the files it opens for a content scan: an
inadmissible file is skipped before being opened, and the loop stops at
the first hit. -/
def openedFiles (uuid : String) (start : DateTime) : List LogFile → List LogFile
  | [] => []
  | f :: rest =>
    if admissibleB start f then
      if containsUuid f uuid then [f] else f :: openedFiles uuid start rest
    else openedFiles uuid start rest

/-- The glob filter of log_retriever.py, line 37. -/
def matchingFiles (start : DateTime) (dir : List LogFile) : List LogFile :=
  dir.filter (fun f => globMatch (dateStr start) f.name)

/-- sorted(matching_files) of log_retriever.py, line 46. -/
def candidatesFor (start : DateTime) (dir : List LogFile) : List LogFile :=
  sortByName (matchingFiles start dir)

/-- find_log_file (log_retriever.py, lines 20-70). -/
def find_log_file (uuid : String) (start : DateTime) (dir : List LogFile) :
    Option LogFile :=
  let matching := matchingFiles start dir
  if matching = [] then none
  else searchFiles uuid start (sortByName matching)

/-- The prefix of a list up to and including its first element that
satisfies the test. -/
def upToFirst (q : LogFile → Bool) (l : List LogFile) : List LogFile :=
  l.takeWhile (fun f => !q f) ++ (l.dropWhile (fun f => !q f)).take 1

example : daysFromCivil 1970 1 1 = 0 := by decide
example : daysFromCivil 1970 1 2 = 1 := by decide
example : daysFromCivil 2000 3 1 - daysFromCivil 2000 2 29 = 1 := by decide
example : daysFromCivil 2001 3 1 - daysFromCivil 2001 2 28 = 1 := by decide
example : daysFromCivil 2020 1 1 = 18262 := by decide
example : parseTimestamp "2026-02-06T03-08-14" = some ⟨2026, 2, 6, 3, 8, 14⟩ := by decide
example : parseTimestamp "2026-02-30T03-08-14" = none := by decide
example : parseTimestamp "2026-02-06T03-08-1x" = none := by decide
example : parseLogStamp "2026-02-06T03-08-14_perception_api.log" = some ⟨2026, 2, 6, 3, 8, 14⟩ := by decide
example : parseLogStamp "2026-02-06Tfoo_perception_api.log" = none := by decide
example : globMatch "2026-02-06" "2026-02-06T03-08-14_perception_api.log" = true := by decide
example : globMatch "2026-02-06" "2026-02-06T03-08-14_perception_api.log.gz" = false := by decide
example : globMatch "2026-02-06" "2026-02-07T03-08-14_perception_api.log" = false := by decide
example : dateStr ⟨2026, 2, 6, 12, 0, 0⟩ = "2026-02-06" := by decide
example : find_log_file "abc" ⟨2026, 2, 6, 12, 0, 0⟩
    [⟨"2026-02-06T10-00-00_perception_api.log", ["job abc ok"]⟩]
    = some ⟨"2026-02-06T10-00-00_perception_api.log", ["job abc ok"]⟩ := by decide

lemma searchFiles_eq (uuid : String) (start : DateTime) (l : List LogFile) :
    searchFiles uuid start l
      = (l.filter (fun f => admissibleB start f && containsUuid f uuid)).head? := by
  induction l with
  | nil => rfl
  | cons f rest ih =>
    cases ha : admissibleB start f <;> cases hc : containsUuid f uuid <;>
      simp [searchFiles, ha, hc, List.filter_cons, ih]

lemma openedFiles_eq (uuid : String) (start : DateTime) (l : List LogFile) :
    openedFiles uuid start l
      = upToFirst (fun f => containsUuid f uuid)
          (l.filter (fun f => admissibleB start f)) := by
  induction l with
  | nil => rfl
  | cons f rest ih =>
    cases ha : admissibleB start f <;> cases hc : containsUuid f uuid <;>
      simp [openedFiles, upToFirst, ha, hc, List.filter_cons, ih]

/-- C6: find_log_file returns at most one file, namely the first
admissible candidate in ascending filename order containing the job
identifier as a substring (none when no admissible candidate contains
it), and the loop opens no candidate past the first hit: the opened
files are exactly the admissible candidates up to and including the
match. -/
theorem c6_first_admissible_match (uuid : String) (start : DateTime) (dir : List LogFile) :
    find_log_file uuid start dir
      = ((candidatesFor start dir).filter
          (fun f => admissibleB start f && containsUuid f uuid)).head?
    ∧ openedFiles uuid start (candidatesFor start dir)
      = upToFirst (fun f => containsUuid f uuid)
          ((candidatesFor start dir).filter (fun f => admissibleB start f)) := by
  refine ⟨?_, openedFiles_eq uuid start _⟩
  rw [find_log_file]
  by_cases h : matchingFiles start dir = []
  · simp [h, candidatesFor, sortByName]
  · simp only [h, if_false, candidatesFor]
    exact searchFiles_eq uuid start _

/-- C1 counterexample input: the job starts at noon, the log file
timestamp is 10:00, two hours before the job, outside the window
[start - 1h, start + 24h] the claim states; find_log_file still returns
it. -/
def fileC1 : LogFile :=
  ⟨"2026-02-06T10-00-00_perception_api.log",
   ["2026-02-06 10:05:00 job deadbeef-1111 started\n"]⟩

def startC1 : DateTime := ⟨2026, 2, 6, 12, 0, 0⟩

def stampC1 : DateTime := ⟨2026, 2, 6, 10, 0, 0⟩

/-- C1 is false as stated: a candidate whose parsed timestamp lies
before approxStart - 1 hour (so outside [approxStart - 1h,
approxStart + 24h]) is admissible and is returned. -/
theorem c1_counterexample :
    find_log_file "deadbeef-1111" startC1 [fileC1] = some fileC1
    ∧ parseLogStamp fileC1.name = some stampC1
    ∧ epochSecs stampC1 < epochSecs startC1 - 3600 := by
  refine ⟨by decide, by decide, by decide⟩

/-- C1 amended: a returned candidate whose filename timestamp parses
lies within [approxStart - 24 hours, approxStart + 1 hour], that is,
start - log lies within [-3600, 86400] seconds; unparseable timestamps
bypass the check. -/
theorem c1_amended_window (uuid : String) (start : DateTime) (dir : List LogFile)
    (f : LogFile) (t : DateTime)
    (hf : find_log_file uuid start dir = some f)
    (ht : parseLogStamp f.name = some t) :
    -3600 ≤ epochSecs start - epochSecs t
    ∧ epochSecs start - epochSecs t ≤ 86400 := by
  rw [find_log_file] at hf
  by_cases h : matchingFiles start dir = []
  · simp [h] at hf
  · simp only [h, if_false] at hf
    rw [searchFiles_eq] at hf
    have hmem : f ∈ (sortByName (matchingFiles start dir)).filter
        (fun f => admissibleB start f && containsUuid f uuid) := by
      cases hl : (sortByName (matchingFiles start dir)).filter
          (fun f => admissibleB start f && containsUuid f uuid) with
      | nil => rw [hl] at hf; simp at hf
      | cons a as =>
        rw [hl] at hf
        simp only [List.head?_cons, Option.some.injEq] at hf
        subst hf
        exact List.mem_cons_self a as
    have hfil := List.of_mem_filter hmem
    simp only [Bool.and_eq_true] at hfil
    have hadm : admissibleB start f = true := hfil.1
    rw [admissibleB, ht] at hadm
    simp only [Bool.not_eq_true', Bool.or_eq_false_iff, decide_eq_false_iff_not,
      not_lt] at hadm
    exact ⟨hadm.1, hadm.2⟩

def fileC1W : LogFile :=
  ⟨"2026-02-06T11-30-00_perception_api.log", ["job cafe-2222 failed\n"]⟩

def startC1W : DateTime := ⟨2026, 2, 6, 12, 0, 0⟩

def stampC1W : DateTime := ⟨2026, 2, 6, 11, 30, 0⟩

theorem c1_amended_window_witness :
    find_log_file "cafe-2222" startC1W [fileC1W] = some fileC1W
    ∧ parseLogStamp fileC1W.name = some stampC1W
    ∧ (-3600 ≤ epochSecs startC1W - epochSecs stampC1W
        ∧ epochSecs startC1W - epochSecs stampC1W ≤ 86400) :=
  ⟨by decide, by decide,
    c1_amended_window "cafe-2222" startC1W [fileC1W] fileC1W stampC1W
      (by decide) (by decide)⟩

/-- C2 failing input: a gzip-compressed log file of the target day that
contains the job identifier. -/
def gzFileC2 : LogFile :=
  ⟨"2026-02-06T03-08-14_perception_api.log.gz", ["job abc-123 crashed\n"]⟩

def startC2 : DateTime := ⟨2026, 2, 6, 3, 30, 0⟩

/-- C2: the glob pattern of find_log_file requires the exact ending
".log", so a ".log.gz" file of the target day is never a candidate and
find_log_file returns none even though the content scan (which has an
explicit gzip branch) would have found the identifier in it. -/
theorem c2_gz_never_candidate :
    globMatch "2026-02-06" gzFileC2.name = false
    ∧ find_log_file "abc-123" startC2 [gzFileC2] = none
    ∧ containsUuid gzFileC2 "abc-123" = true := by
  refine ⟨by decide, by decide, by decide⟩

/-- Concatenation with no separator: Python "".join(lines). -/
def strConcat : List String → String
  | [] => ""
  | s :: rest => s ++ strConcat rest

/-- The severity markers of extract_error_summary (log_retriever.py,
lines 122-130); each is a regex with no metacharacter, so re.search with
IGNORECASE is a case-insensitive substring test. -/
def important_patterns : List String :=
  ["ERROR", "EXCEPTION", "TRACEBACK", "CRITICAL", "FATAL", "Failed", "Exception:"]

/-- Line 134: does any severity marker match the line,
case-insensitively? -/
def isImportant (line : String) : Bool :=
  important_patterns.any (fun pat => containsCI line pat)

/-- The Python slice l[-n:] for a nonnegative n: slicing with -0 is
slicing with 0 and returns the whole list. -/
def lastSlice (n : Nat) (l : List String) : List String :=
  if n = 0 then l else l.drop (l.length - n)

/-- extract_error_summary (log_retriever.py, lines 113-145). -/
def extract_error_summary (log_lines : List String) (max_lines : Nat) : String :=
  if log_lines = [] then "No log data available"
  else
    let important_lines := log_lines.filter isImportant
    if important_lines ≠ [] then
      "=== Error Summary (" ++ toString important_lines.length
        ++ " error lines found) ===\n\n"
        ++ strConcat (lastSlice max_lines important_lines)
    else
      let result_lines := lastSlice max_lines log_lines
      "=== Last " ++ toString result_lines.length ++ " log lines ===\n\n"
        ++ strConcat result_lines

/-- The last n elements of a list, as the claim reads "the last maxLines
lines". -/
def lastN (n : Nat) (l : List String) : List String := l.drop (l.length - n)

/-- Modelled from the claim C7 wording, for comparison with
extract_error_summary: marker-matching lines win, truncated to the last
maxLines of them under a header counting all of them; otherwise the last
maxLines lines under a header counting the shown lines; the fixed no
data sentinel when nothing was extracted. -/
def specSummary (log_lines : List String) (max_lines : Nat) : String :=
  if log_lines = [] then "No log data available"
  else
    let matching := log_lines.filter isImportant
    if matching ≠ [] then
      "=== Error Summary (" ++ toString matching.length
        ++ " error lines found) ===\n\n"
        ++ strConcat (lastN max_lines matching)
    else
      "=== Last " ++ toString (lastN max_lines log_lines).length
        ++ " log lines ===\n\n"
        ++ strConcat (lastN max_lines log_lines)

lemma lastSlice_eq_lastN (n : Nat) (l : List String) (h : n ≠ 0) :
    lastSlice n l = lastN n l := by
  simp [lastSlice, lastN, h]

/-- C7 is false as stated at maxLines = 0: the Python slice
important_lines[-0:] keeps every marker line instead of the last zero of
them. -/
theorem c7_counterexample :
    extract_error_summary ["ERROR one\n", "ERROR two\n"] 0
      ≠ specSummary ["ERROR one\n", "ERROR two\n"] 0
    ∧ extract_error_summary ["ERROR one\n", "ERROR two\n"] 0
      = "=== Error Summary (2 error lines found) ===\n\nERROR one\nERROR two\n"
    ∧ specSummary ["ERROR one\n", "ERROR two\n"] 0
      = "=== Error Summary (2 error lines found) ===\n\n" := by
  refine ⟨by decide, by decide, by decide⟩

/-- C7 amended: for every maxLines of at least 1, extract_error_summary
behaves exactly as the claim states: header with the total count of
marker-matching lines over the last maxLines of them; else the
tail-fallback header with the count of shown lines over the last
maxLines lines; else the fixed no data sentinel. -/
theorem c7_amended_summary (log_lines : List String) (max_lines : Nat)
    (h : 1 ≤ max_lines) :
    extract_error_summary log_lines max_lines = specSummary log_lines max_lines := by
  have hn : max_lines ≠ 0 := by omega
  rw [extract_error_summary, specSummary]
  simp only [lastSlice_eq_lastN _ _ hn]

theorem c7_amended_summary_witness :
    1 ≤ 3
    ∧ extract_error_summary ["ok line\n", "ERROR boom\n", "tail\n"] 3
      = specSummary ["ok line\n", "ERROR boom\n", "tail\n"] 3 :=
  ⟨by decide, c7_amended_summary ["ok line\n", "ERROR boom\n", "tail\n"] 3 (by decide)⟩

/-- One value of the results dict of get_failed_process_logs: found,
log_file, summary and saved_path are set by both branches; full_log and
line_count are keys only the found branch adds, so they are Options
standing for key presence. -/
structure LogResult where
  found : Bool
  log_file : Option String
  summary : String
  saved_path : Option String
  full_log : Option String
  line_count : Option Nat
deriving DecidableEq

/-- Python dict assignment d[k] = v on an insertion-ordered dict:
replace in place when the key is present, append otherwise. -/
def upsert {α : Type} (m : List (String × α)) (k : String) (v : α) :
    List (String × α) :=
  if m.any (fun kv => kv.1 == k) then
    m.map (fun kv => if kv.1 == k then (k, v) else kv)
  else m ++ [(k, v)]

/-- Python dict lookup d.get(k) on the same model. -/
def dget {α : Type} : List (String × α) → String → Option α
  | [], _ => none
  | (k1, v) :: rest, k => if k1 == k then some v else dget rest k

/-- extract_process_logs (log_retriever.py, lines 89-111): every line of
the chosen file that contains the uuid. -/
def extract_process_logs (f : LogFile) (uuid : String) : List String :=
  f.lines.filter (fun line => strContains line uuid)

/-- save_process_log (log_retriever.py, lines 147-161): writes the
content and returns output_dir / "<uuid>_<timestamp>.log"; the
datetime.now() generation stamp is the now parameter. -/
def save_process_log (uuid outputDir now : String) : String :=
  outputDir ++ "/" ++ uuid ++ "_" ++ now ++ ".log"

/-- The dict literal of log_retriever.py, lines 188-193. -/
def logNotFoundInfo : LogResult :=
  ⟨false, none, "Log file not found", none, none, none⟩

/-- The loop body of get_failed_process_logs (log_retriever.py, lines
177-213): the dict value stored for one failed process. -/
def resultFor (dir : List LogFile) (outputDir now : String) (p : Process) : LogResult :=
  match find_log_file p.process_uuid p.start_time dir with
  | none => logNotFoundInfo
  | some lf =>
    let log_lines := extract_process_logs lf p.process_uuid
    let summary := extract_error_summary log_lines 50
    let full_log := strConcat log_lines
    let saved_path := save_process_log p.process_uuid outputDir now
    ⟨true, some lf.name, summary, some saved_path, some full_log, some log_lines.length⟩

/-- get_failed_process_logs (log_retriever.py, lines 163-215). -/
def get_failed_process_logs (dir : List LogFile) (failed_processes : List Process)
    (outputDir now : String) : List (String × LogResult) :=
  failed_processes.foldl
    (fun results p => upsert results p.process_uuid (resultFor dir outputDir now p)) []

lemma upsert_of_fresh {α : Type} (m : List (String × α)) (k : String) (v : α)
    (h : ∀ kv ∈ m, kv.1 ≠ k) : upsert m k v = m ++ [(k, v)] := by
  rw [upsert, if_neg]
  intro hany
  obtain ⟨kv, hkv, hb⟩ := List.any_eq_true.mp hany
  exact h kv hkv (by simpa using hb)

lemma gfpl_foldl {α : Type} (val : Process → α) :
    ∀ (l : List Process) (acc : List (String × α)),
      (∀ kv ∈ acc, ∀ p ∈ l, kv.1 ≠ p.process_uuid) →
      (l.map (fun p => p.process_uuid)).Nodup →
      l.foldl (fun results p => upsert results p.process_uuid (val p)) acc
        = acc ++ l.map (fun p => (p.process_uuid, val p)) := by
  intro l
  induction l with
  | nil => intro acc _ _; simp
  | cons p rest ih =>
    intro acc hdisj hnodup
    rw [List.map_cons, List.nodup_cons] at hnodup
    rw [List.foldl_cons,
      upsert_of_fresh _ _ _ (fun kv hkv => hdisj kv hkv p (List.mem_cons_self p rest)),
      ih (acc ++ [(p.process_uuid, val p)]) ?_ ?_]
    · simp
    · intro kv hkv q hq
      rcases List.mem_append.mp hkv with h1 | h1
      · exact hdisj kv h1 q (List.mem_cons_of_mem p hq)
      · simp only [List.mem_singleton] at h1
        subst h1
        intro hcontra
        apply hnodup.1
        have : q.process_uuid ∈ List.map (fun r => r.process_uuid) rest :=
          List.mem_map_of_mem (fun r => r.process_uuid) hq
        simpa [← hcontra] using this
    · exact hnodup.2

lemma dget_map_of_nodup {α : Type} (val : Process → α) (l : List Process)
    (hnodup : (l.map (fun p => p.process_uuid)).Nodup) (p : Process) (hp : p ∈ l) :
    dget (l.map (fun q => (q.process_uuid, val q))) p.process_uuid = some (val p) := by
  induction l with
  | nil => cases hp
  | cons q rest ih =>
    rw [List.map_cons, List.nodup_cons] at hnodup
    rcases List.mem_cons.mp hp with rfl | hmem
    · simp [dget]
    · have hne : q.process_uuid ≠ p.process_uuid := by
        intro he
        exact hnodup.1 (he ▸ List.mem_map_of_mem (fun r => r.process_uuid) hmem)
      simp only [List.map_cons, dget, beq_iff_eq, if_neg hne]
      exact ih hnodup.2 hmem

/-- C10: get_failed_process_logs returns the dict with exactly one
entry per input job's process identifier, in input order, none dropped;
each entry is the per-job result record, which carries found, summary
and saved_path, and equals the found=false, summary "Log file not
found", saved_path None record whenever no log file was located. -/
theorem c10_logs_map (dir : List LogFile) (failed_processes : List Process)
    (outputDir now : String)
    (h : (failed_processes.map (fun p => p.process_uuid)).Nodup) :
    get_failed_process_logs dir failed_processes outputDir now
      = failed_processes.map (fun p => (p.process_uuid, resultFor dir outputDir now p))
    ∧ (∀ p ∈ failed_processes,
        dget (get_failed_process_logs dir failed_processes outputDir now) p.process_uuid
          = some (resultFor dir outputDir now p))
    ∧ (∀ p ∈ failed_processes,
        find_log_file p.process_uuid p.start_time dir = none →
          resultFor dir outputDir now p = logNotFoundInfo) := by
  have hmap := gfpl_foldl (resultFor dir outputDir now) failed_processes []
    (by intro kv hkv; cases hkv) h
  refine ⟨by simpa [get_failed_process_logs] using hmap, ?_, ?_⟩
  · intro p hp
    rw [get_failed_process_logs]
    rw [hmap]
    simpa using dget_map_of_nodup (resultFor dir outputDir now) failed_processes h p hp
  · intro p hp hfind
    rw [resultFor, hfind]

def dirW10 : List LogFile :=
  [⟨"2026-02-06T08-00-00_perception_api.log", ["boot\n", "job u-one ERROR crash\n"]⟩]

def failedW10 : List Process :=
  [⟨"A", some "k1", some "Failed", ⟨2026, 2, 6, 8, 30, 0⟩, none, none, none, "u-one"⟩,
   ⟨"B", some "k2", some "Failed", ⟨2026, 2, 6, 9, 0, 0⟩, none, none, none, "u-two"⟩]

theorem c10_logs_map_witness :
    (failedW10.map (fun p => p.process_uuid)).Nodup
    ∧ (get_failed_process_logs dirW10 failedW10 "/out" "20260206_120000"
        = failedW10.map (fun p => (p.process_uuid, resultFor dirW10 "/out" "20260206_120000" p))
      ∧ (∀ p ∈ failedW10,
          dget (get_failed_process_logs dirW10 failedW10 "/out" "20260206_120000") p.process_uuid
            = some (resultFor dirW10 "/out" "20260206_120000" p))
      ∧ (∀ p ∈ failedW10,
          find_log_file p.process_uuid p.start_time dirW10 = none →
            resultFor dirW10 "/out" "20260206_120000" p = logNotFoundInfo)) :=
  ⟨by decide, c10_logs_map dirW10 failedW10 "/out" "20260206_120000" (by decide)⟩

/-- The tenant-skip filter of fetch_processes (daily_report.py, lines
110-119): when the skip set is nonempty, drop every process whose
api_key is a member of it; a missing/None key is never a member of a set
of strings, so such processes are kept. -/
def fetch_filtered (skip : List String) (all_processes : List Process) : List Process :=
  if skip ≠ [] then
    all_processes.filter (fun p =>
      match p.api_key with
      | some k => !(skip.contains k)
      | none => true)
  else all_processes

/-- fetch_processes (daily_report.py, lines 101-124): the skip filter
runs once, then the remaining processes are categorized. -/
def fetch_processes (skip : List String) (all_processes : List Process) :
    List Process × Except String Buckets :=
  (fetch_filtered skip all_processes,
   categorize_processes (fetch_filtered skip all_processes))

/-- C8: a job whose tenant API key is in the skip set is removed before
classification, so it is absent from the filtered list and from each of
the four downstream buckets (and hence from the report, which is
rendered from those buckets alone). -/
theorem c8_skip_filter (skip : List String) (all_processes : List Process)
    (p : Process) (k : String) (b : Buckets)
    (hk : p.api_key = some k) (hs : k ∈ skip)
    (hb : categorize_processes (fetch_filtered skip all_processes) = .ok b) :
    p ∉ fetch_filtered skip all_processes
    ∧ p ∉ b.finished ∧ p ∉ b.failed ∧ p ∉ b.running ∧ p ∉ b.other := by
  have hskip : skip ≠ [] := List.ne_nil_of_mem hs
  have hnot : p ∉ fetch_filtered skip all_processes := by
    intro hmem
    rw [fetch_filtered, if_pos hskip] at hmem
    have hpred := List.of_mem_filter hmem
    rw [hk] at hpred
    simp only [Bool.not_eq_true', List.contains] at hpred
    rw [List.elem_eq_true_of_mem hs] at hpred
    cases hpred
  have hall : ∀ q ∈ fetch_filtered skip all_processes, (q.status_name).isSome = true := by
    have hex : ∃ bb, categorizeGo (fetch_filtered skip all_processes) ⟨[], [], [], []⟩ = .ok bb :=
      ⟨b, hb⟩
    exact (categorizeGo_ok_iff _ _).mp hex
  have heq := categorizeGo_eq (fetch_filtered skip all_processes) ⟨[], [], [], []⟩ hall
  rw [categorize_processes, heq] at hb
  have hbv : b = ⟨(fetch_filtered skip all_processes).filter (inBucket .finished),
      (fetch_filtered skip all_processes).filter (inBucket .failed),
      (fetch_filtered skip all_processes).filter (inBucket .running),
      (fetch_filtered skip all_processes).filter (inBucket .other)⟩ := by
    cases hb
    simp
  subst hbv
  exact ⟨hnot,
    fun hmem => hnot (List.mem_of_mem_filter hmem),
    fun hmem => hnot (List.mem_of_mem_filter hmem),
    fun hmem => hnot (List.mem_of_mem_filter hmem),
    fun hmem => hnot (List.mem_of_mem_filter hmem)⟩

def skipW8 : List String := ["sk-test"]

def pW8 : Process :=
  ⟨"TestClient", some "sk-test", some "Failed", ⟨2026, 2, 6, 1, 0, 0⟩,
   none, none, none, "u-skip"⟩

def qW8 : Process :=
  ⟨"RealClient", some "sk-real", some "Finished", ⟨2026, 2, 6, 2, 0, 0⟩,
   none, none, none, "u-real"⟩

def bW8 : Buckets := ⟨[qW8], [], [], []⟩

theorem c8_skip_filter_witness :
    pW8.api_key = some "sk-test"
    ∧ "sk-test" ∈ skipW8
    ∧ categorize_processes (fetch_filtered skipW8 [pW8, qW8]) = .ok bW8
    ∧ (pW8 ∉ fetch_filtered skipW8 [pW8, qW8]
      ∧ pW8 ∉ bW8.finished ∧ pW8 ∉ bW8.failed ∧ pW8 ∉ bW8.running ∧ pW8 ∉ bW8.other) :=
  ⟨rfl, by decide, by rfl,
    c8_skip_filter skipW8 [pW8, qW8] pW8 "sk-test" bW8 rfl (by decide) (by rfl)⟩

/-- The dict literal of daily_report.py, lines 151-156. -/
def logNotConfiguredInfo : LogResult :=
  ⟨false, none, "Log retrieval not configured", none, none, none⟩

/-- process_failed_processes (daily_report.py, lines 126-159): with a
configured log retriever, delegate to get_failed_process_logs on its
logs directory; otherwise build the not-configured placeholder dict,
one entry per failed process, in the same assign-in-a-loop way. -/
def process_failed_processes (retr : Option (List LogFile)) (outputDir now : String)
    (failed_processes : List Process) : List (String × LogResult) :=
  if failed_processes = [] then []
  else
    match retr with
    | some dir => get_failed_process_logs dir failed_processes outputDir now
    | none =>
      failed_processes.foldl
        (fun acc p => upsert acc p.process_uuid logNotConfiguredInfo) []

/-- One value of the finished_data dict built by
process_finished_processes (daily_report.py, lines 161-205); the html
renderer reads only video_link (the raw process row it also stores is
taken from the buckets there, so it is not duplicated here). -/
structure FinishedInfo where
  client_name : String
  api_key : Option String
  video_link : Option String
deriving DecidableEq

/-- The f-string rendering of a value that may be Python None: every
dict key the renderer reads below is present in the database row, so the
dict.get defaults never fire and a None value renders as "None". -/
def showOpt : Option String → String
  | some s => s
  | none => "None"

/-- The fixed style sheet and document head of the report
(email_report.py, lines 126-151); the doubled braces of the Python
f-string render as single braces, written here as \x7b and \x7d. -/
def htmlHead : String :=
  "\n<!DOCTYPE html>\n<html>\n<head>\n    <style>\n"
  ++ "        body \x7b font-family: Arial, sans-serif; line-height: 1.6; color: #333; \x7d\n"
  ++ "        .header \x7b background: #2c3e50; color: white; padding: 20px; border-radius: 5px; \x7d\n"
  ++ "        .summary \x7b background: #ecf0f1; padding: 15px; margin: 20px 0; border-radius: 5px; \x7d\n"
  ++ "        .section \x7b margin: 20px 0; \x7d\n"
  ++ "        .section-title \x7b color: #2c3e50; border-bottom: 2px solid #3498db; padding-bottom: 5px; \x7d\n"
  ++ "        .process-card \x7b background: #fff; border: 1px solid #ddd; padding: 15px; margin: 10px 0; border-radius: 5px; \x7d\n"
  ++ "        .failed \x7b border-left: 4px solid #e74c3c; \x7d\n"
  ++ "        .finished \x7b border-left: 4px solid #27ae60; \x7d\n"
  ++ "        .running \x7b border-left: 4px solid #f39c12; \x7d\n"
  ++ "        .log-snippet \x7b background: #2c3e50; color: #ecf0f1; padding: 10px; border-radius: 3px; font-family: monospace; font-size: 12px; overflow-x: auto; \x7d\n"
  ++ "        table \x7b width: 100%; border-collapse: collapse; margin: 10px 0; \x7d\n"
  ++ "        th, td \x7b padding: 10px; text-align: left; border-bottom: 1px solid #ddd; \x7d\n"
  ++ "        th \x7b background: #3498db; color: white; \x7d\n"
  ++ "        .status-badge \x7b padding: 3px 8px; border-radius: 3px; font-size: 12px; font-weight: bold; \x7d\n"
  ++ "        .badge-failed \x7b background: #e74c3c; color: white; \x7d\n"
  ++ "        .badge-finished \x7b background: #27ae60; color: white; \x7d\n"
  ++ "        .badge-running \x7b background: #f39c12; color: white; \x7d\n"
  ++ "        a \x7b color: #3498db; text-decoration: none; \x7d\n"
  ++ "        a:hover \x7b text-decoration: underline; \x7d\n"
  ++ "    </style>\n</head>\n<body>\n"

/-- The report header and summary table (email_report.py, lines
152-175). -/
def htmlSummary (timestamp : DateTime) (total fin fai run : Nat) : String :=
  "    <div class=\"header\">\n        <h1>📊 Daily Client Process Report</h1>\n        <p>Generated: "
  ++ dtDisplay timestamp
  ++ "</p>\n    </div>\n    \n    <div class=\"summary\">\n        <h2>📈 Summary</h2>\n        <table>\n            <tr>\n                <th>Total Processes</th>\n                <th>✅ Finished</th>\n                <th>❌ Failed</th>\n                <th>⏳ Running</th>\n            </tr>\n            <tr>\n                <td><strong>"
  ++ toString total
  ++ "</strong></td>\n                <td><span class=\"status-badge badge-finished\">"
  ++ toString fin
  ++ "</span></td>\n                <td><span class=\"status-badge badge-failed\">"
  ++ toString fai
  ++ "</span></td>\n                <td><span class=\"status-badge badge-running\">"
  ++ toString run
  ++ "</span></td>\n            </tr>\n        </table>\n    </div>\n"

/-- Lines 206-208 of email_report.py. -/
def notFoundHtml : String := "\n            <p><em>⚠️ Log file not found</em></p>\n"

/-- Lines 198-204 of email_report.py. -/
def foundHtml (r : LogResult) : String :=
  "\n            <h4>🔍 Error Summary:</h4>\n            <div class=\"log-snippet\">"
  ++ (r.summary.replace "\n" "<br>")
  ++ "</div>\n            <p><small>Full log available at: "
  ++ showOpt r.saved_path
  ++ "</small></p>\n"

/-- Lines 187-196 of email_report.py. -/
def failedCardHead (p : Process) : String :=
  "\n        <div class=\"process-card failed\">\n            <h3>"
  ++ p.name
  ++ "</h3>\n            <table>\n                <tr><td><strong>Process UUID:</strong></td><td>"
  ++ p.process_uuid
  ++ "</td></tr>\n                <tr><td><strong>Status:</strong></td><td>"
  ++ showOpt p.status_name
  ++ "</td></tr>\n                <tr><td><strong>Start Time:</strong></td><td>"
  ++ dtDisplay p.start_time
  ++ "</td></tr>\n                <tr><td><strong>Source:</strong></td><td>"
  ++ showOpt p.source_alias
  ++ "</td></tr>\n            </table>\n"

/-- One failed-process card (email_report.py, lines 183-212): the found
flag of the per-uuid log info picks the summary block or the not-found
line; a uuid absent from the dict reads as not found. -/
def failedCard (failed_logs : List (String × LogResult)) (p : Process) : String :=
  failedCardHead p
  ++ (match dget failed_logs p.process_uuid with
      | some r => if r.found then foundHtml r else notFoundHtml
      | none => notFoundHtml)
  ++ "\n        </div>\n"

/-- The failed-processes section (email_report.py, lines 177-215). -/
def failedSection (failed : List Process) (failed_logs : List (String × LogResult)) :
    String :=
  if failed = [] then ""
  else
    "\n    <div class=\"section\">\n        <h2 class=\"section-title\">❌ Failed Processes</h2>\n"
    ++ strConcat (failed.map (failedCard failed_logs))
    ++ "\n    </div>\n"

/-- One finished-process card (email_report.py, lines 223-252). -/
def finishedCard (finished_data : List (String × FinishedInfo)) (p : Process) : String :=
  "\n        <div class=\"process-card finished\">\n            <h3>"
  ++ p.name
  ++ "</h3>\n            <table>\n                <tr><td><strong>Process UUID:</strong></td><td>"
  ++ p.process_uuid
  ++ "</td></tr>\n                <tr><td><strong>Status:</strong></td><td>"
  ++ showOpt p.status_name
  ++ "</td></tr>\n                <tr><td><strong>Start Time:</strong></td><td>"
  ++ dtDisplay p.start_time
  ++ "</td></tr>\n                <tr><td><strong>Stop Time:</strong></td><td>"
  ++ showOpt p.stop_time
  ++ "</td></tr>\n                <tr><td><strong>Duration:</strong></td><td>"
  ++ showOpt p.elapsed_time_min
  ++ " min</td></tr>\n                <tr><td><strong>Source:</strong></td><td>"
  ++ showOpt p.source_alias
  ++ "</td></tr>\n"
  ++ (match (dget finished_data p.process_uuid).bind (fun d => d.video_link) with
      | some link =>
        "\n                <tr><td><strong>📹 Video:</strong></td><td><a href=\""
        ++ link ++ "\">View in OneDrive</a></td></tr>\n"
      | none =>
        "\n                <tr><td><strong>📹 Video:</strong></td><td><em>Not found in OneDrive</em></td></tr>\n")
  ++ "\n            </table>\n        </div>\n"

/-- The finished-processes section (email_report.py, lines 217-255). -/
def finishedSection (finished : List Process)
    (finished_data : List (String × FinishedInfo)) : String :=
  if finished = [] then ""
  else
    "\n    <div class=\"section\">\n        <h2 class=\"section-title\">✅ Finished Processes</h2>\n"
    ++ strConcat (finished.map (finishedCard finished_data))
    ++ "\n    </div>\n"

/-- One running-process card (email_report.py, lines 263-274). -/
def runningCard (p : Process) : String :=
  "\n        <div class=\"process-card running\">\n            <h3>"
  ++ p.name
  ++ "</h3>\n            <table>\n                <tr><td><strong>Process UUID:</strong></td><td>"
  ++ p.process_uuid
  ++ "</td></tr>\n                <tr><td><strong>Status:</strong></td><td>"
  ++ showOpt p.status_name
  ++ "</td></tr>\n                <tr><td><strong>Start Time:</strong></td><td>"
  ++ dtDisplay p.start_time
  ++ "</td></tr>\n                <tr><td><strong>Elapsed:</strong></td><td>"
  ++ showOpt p.elapsed_time_min
  ++ " min</td></tr>\n            </table>\n        </div>\n"

/-- The running-processes section (email_report.py, lines 257-277). -/
def runningSection (running : List Process) : String :=
  if running = [] then ""
  else
    "\n    <div class=\"section\">\n        <h2 class=\"section-title\">⏳ Running Processes</h2>\n"
    ++ strConcat (running.map runningCard)
    ++ "\n    </div>\n"

/-- Lines 279-287 of email_report.py. -/
def htmlFooter : String :=
  "\n    <div class=\"section\">\n        <p style=\"color: #7f8c8d; font-size: 12px;\">\n            <em>This is an automated report generated by the Client Process Monitoring System.</em>\n        </p>\n    </div>\n</body>\n</html>\n"

/-- _generate_html_report (email_report.py, lines 111-289): the summary
counts come from the four buckets, then the three sections and the
footer are appended in order. -/
def generate_html_report (categorized : Buckets)
    (failed_logs : List (String × LogResult))
    (finished_data : List (String × FinishedInfo)) (timestamp : DateTime) : String :=
  htmlHead
  ++ htmlSummary timestamp
      (categorized.finished.length + categorized.failed.length
        + categorized.running.length + categorized.other.length)
      categorized.finished.length categorized.failed.length categorized.running.length
  ++ failedSection categorized.failed failed_logs
  ++ finishedSection categorized.finished finished_data
  ++ runningSection categorized.running
  ++ htmlFooter

lemma leadsWith_append_of (n : List Char) :
    ∀ (l t : List Char), leadsWith n l = true → leadsWith n (l ++ t) = true := by
  induction n with
  | nil => intro l t _; simp [leadsWith]
  | cons a as ih =>
    intro l t h
    cases l with
    | nil => simp [leadsWith] at h
    | cons b bs =>
      simp only [leadsWith, Bool.and_eq_true] at h ⊢
      exact ⟨h.1, ih bs t h.2⟩

lemma hasSub_of_leadsWith (n l : List Char) (h : leadsWith n l = true) :
    hasSub n l = true := by
  cases l <;> simp [hasSub, h]

lemma hasSub_append_left (n : List Char) (pre : List Char) (l : List Char)
    (h : hasSub n l = true) : hasSub n (pre ++ l) = true := by
  induction pre with
  | nil => simpa
  | cons a as ih => simp [hasSub, ih]

lemma hasSub_append_right (n : List Char) (l t : List Char)
    (h : hasSub n l = true) : hasSub n (l ++ t) = true := by
  induction l with
  | nil =>
    cases n with
    | nil => cases t <;> simp [hasSub, leadsWith]
    | cons a as => simp [hasSub, leadsWith] at h
  | cons b bs ih =>
    simp only [hasSub, Bool.or_eq_true] at h
    rcases h with h | h
    · simp only [List.cons_append, hasSub, Bool.or_eq_true]
      exact Or.inl (leadsWith_append_of n (b :: bs) t h)
    · simp only [List.cons_append, hasSub, Bool.or_eq_true]
      exact Or.inr (ih h)

lemma strContains_append_left (a b pat : String) (h : strContains b pat = true) :
    strContains (a ++ b) pat = true := by
  rw [strContains] at h ⊢
  rw [String.data_append]
  exact hasSub_append_left _ _ _ h

lemma strContains_append_right (a b pat : String) (h : strContains a pat = true) :
    strContains (a ++ b) pat = true := by
  rw [strContains] at h ⊢
  rw [String.data_append]
  exact hasSub_append_right _ _ _ h

lemma strContains_concat_of_mem (l : List String) (s pat : String) (hs : s ∈ l)
    (h : strContains s pat = true) : strContains (strConcat l) pat = true := by
  induction l with
  | nil => cases hs
  | cons a as ih =>
    simp only [strConcat]
    rcases List.mem_cons.mp hs with rfl | hmem
    · exact strContains_append_right _ _ _ h
    · exact strContains_append_left _ _ _ (ih hmem)

lemma upsert_const_values {α : Type} (v : α) (m : List (String × α)) (k : String)
    (hm : ∀ kv ∈ m, kv.2 = v) : ∀ kv ∈ upsert m k v, kv.2 = v := by
  intro kv hkv
  rw [upsert] at hkv
  split at hkv
  · obtain ⟨kv0, hkv0, heq⟩ := List.mem_map.mp hkv
    split at heq
    · rw [← heq]
    · rw [← heq]; exact hm kv0 hkv0
  · rcases List.mem_append.mp hkv with h1 | h1
    · exact hm kv h1
    · simp only [List.mem_singleton] at h1
      rw [h1]

lemma foldl_const_values {α : Type} (v : α) :
    ∀ (l : List Process) (acc : List (String × α)),
      (∀ kv ∈ acc, kv.2 = v) →
      ∀ kv ∈ l.foldl (fun m p => upsert m p.process_uuid v) acc, kv.2 = v := by
  intro l
  induction l with
  | nil => intro acc hacc; simpa using hacc
  | cons p rest ih =>
    intro acc hacc
    rw [List.foldl_cons]
    exact ih _ (upsert_const_values v acc p.process_uuid hacc)

lemma keys_upsert {α : Type} (m : List (String × α)) (k : String) (v : α) :
    (upsert m k v).map Prod.fst = m.map Prod.fst
    ∨ (upsert m k v).map Prod.fst = m.map Prod.fst ++ [k] := by
  rw [upsert]
  split
  · left
    rw [List.map_map]
    apply List.map_congr_left
    intro kv _
    simp only [Function.comp_apply]
    split
    · rename_i hbeq
      exact (beq_iff_eq.mp hbeq).symm
    · rfl
  · right
    simp

lemma key_mem_upsert_self {α : Type} (m : List (String × α)) (k : String) (v : α) :
    k ∈ (upsert m k v).map Prod.fst := by
  rw [upsert]
  split
  · rename_i hany
    obtain ⟨kv, hkv, hbeq⟩ := List.any_eq_true.mp hany
    have : (k, v) ∈ m.map (fun kv => if kv.1 == k then (k, v) else kv) := by
      refine List.mem_map.mpr ⟨kv, hkv, ?_⟩
      rw [if_pos hbeq]
    simpa using List.mem_map_of_mem Prod.fst this
  · simp

lemma key_mem_upsert_mono {α : Type} (m : List (String × α)) (k k0 : String) (v : α)
    (h : k0 ∈ m.map Prod.fst) : k0 ∈ (upsert m k v).map Prod.fst := by
  rcases keys_upsert m k v with he | he <;> rw [he]
  · exact h
  · exact List.mem_append.mpr (Or.inl h)

lemma key_mem_foldl_mono {α : Type} (v : α) :
    ∀ (l : List Process) (acc : List (String × α)) (k0 : String),
      k0 ∈ acc.map Prod.fst →
      k0 ∈ (l.foldl (fun m p => upsert m p.process_uuid v) acc).map Prod.fst := by
  intro l
  induction l with
  | nil => intro acc k0 h; simpa using h
  | cons p rest ih =>
    intro acc k0 h
    rw [List.foldl_cons]
    exact ih _ k0 (key_mem_upsert_mono acc p.process_uuid k0 v h)

lemma key_mem_foldl {α : Type} (v : α) :
    ∀ (l : List Process) (acc : List (String × α)) (p : Process), p ∈ l →
      p.process_uuid ∈ (l.foldl (fun m q => upsert m q.process_uuid v) acc).map Prod.fst := by
  intro l
  induction l with
  | nil => intro acc p hp; cases hp
  | cons q rest ih =>
    intro acc p hp
    rw [List.foldl_cons]
    rcases List.mem_cons.mp hp with rfl | hmem
    · exact key_mem_foldl_mono v rest _ p.process_uuid
        (key_mem_upsert_self acc p.process_uuid v)
    · exact ih _ p hmem

lemma dget_of_const {α : Type} (v : α) :
    ∀ (m : List (String × α)) (k : String),
      (∀ kv ∈ m, kv.2 = v) → k ∈ m.map Prod.fst → dget m k = some v := by
  intro m
  induction m with
  | nil => intro k _ hk; simp at hk
  | cons kv rest ih =>
    intro k hv hk
    obtain ⟨k1, w⟩ := kv
    by_cases hbeq : k1 = k
    · subst hbeq
      simp only [dget, beq_self_eq_true, if_true]
      exact congrArg some (hv (k1, w) (List.mem_cons_self _ _))
    · simp only [dget, beq_iff_eq, if_neg hbeq]
      refine ih k (fun kv2 h2 => hv kv2 (List.mem_cons_of_mem _ h2)) ?_
      simp only [List.map_cons] at hk
      rcases List.mem_cons.mp hk with h1 | h1
      · exact absurd h1.symm hbeq
      · exact h1

/-- C9: with no log retriever configured, every failed job gets the
found=false, summary "Log retrieval not configured" placeholder, and the
rendered HTML report shows the "Log file not found" line for it instead
of an error. -/
theorem c9_placeholder_report (categorized : Buckets)
    (finished_data : List (String × FinishedInfo)) (timestamp : DateTime)
    (outputDir now : String) (p : Process) (hp : p ∈ categorized.failed) :
    dget (process_failed_processes none outputDir now categorized.failed) p.process_uuid
      = some logNotConfiguredInfo
    ∧ strContains
        (generate_html_report categorized
          (process_failed_processes none outputDir now categorized.failed)
          finished_data timestamp)
        "Log file not found" = true := by
  have hne : categorized.failed ≠ [] := List.ne_nil_of_mem hp
  have hdget : dget (process_failed_processes none outputDir now categorized.failed)
      p.process_uuid = some logNotConfiguredInfo := by
    rw [process_failed_processes, if_neg hne]
    exact dget_of_const logNotConfiguredInfo _ p.process_uuid
      (foldl_const_values logNotConfiguredInfo categorized.failed [] (by intro kv h; cases h))
      (key_mem_foldl logNotConfiguredInfo categorized.failed [] p hp)
  refine ⟨hdget, ?_⟩
  have hcard : strContains
      (failedCard (process_failed_processes none outputDir now categorized.failed) p)
      "Log file not found" = true := by
    rw [failedCard, hdget]
    simp only [logNotConfiguredInfo, Bool.false_eq_true, if_false]
    apply strContains_append_right
    apply strContains_append_left
    decide
  have hsec : strContains
      (failedSection categorized.failed
        (process_failed_processes none outputDir now categorized.failed))
      "Log file not found" = true := by
    rw [failedSection, if_neg hne]
    apply strContains_append_right
    apply strContains_append_left
    exact strContains_concat_of_mem _ _ _
      (List.mem_map_of_mem
        (failedCard (process_failed_processes none outputDir now categorized.failed)) hp)
      hcard
  rw [generate_html_report]
  apply strContains_append_right
  apply strContains_append_right
  apply strContains_append_right
  apply strContains_append_left
  exact hsec

def catW9 : Buckets :=
  ⟨[], [⟨"FailClient", some "k9", some "Failed: timeout", ⟨2026, 2, 6, 5, 0, 0⟩,
        none, none, none, "u-nine"⟩], [], []⟩

def pW9 : Process :=
  ⟨"FailClient", some "k9", some "Failed: timeout", ⟨2026, 2, 6, 5, 0, 0⟩,
   none, none, none, "u-nine"⟩

theorem c9_placeholder_report_witness :
    pW9 ∈ catW9.failed
    ∧ (dget (process_failed_processes none "/out" "20260206_120000" catW9.failed)
          pW9.process_uuid = some logNotConfiguredInfo
      ∧ strContains
          (generate_html_report catW9
            (process_failed_processes none "/out" "20260206_120000" catW9.failed)
            [] ⟨2026, 2, 6, 12, 0, 0⟩)
          "Log file not found" = true) :=
  ⟨by decide,
    c9_placeholder_report catW9 [] ⟨2026, 2, 6, 12, 0, 0⟩ "/out" "20260206_120000"
      pW9 (by decide)⟩
